import Mathlib

/-!
Verification development for `stmetrics/polar.py`.

The module maps a cyclic time series into a polar polygon and derives nine
geometric metrics plus a pairwise symmetric-difference distance.  Series
cleaning (`fixseries`), the polar polygon builder (`create_polygon`), the
polar point lists (`get_list_of_points`) and the planar geometry engine
(shapely) are external collaborators of the module under analysis; they are
bundled in the `GeomEnv` structure below and the polar metrics are embedded
as functions over an arbitrary such environment, exactly following the
control flow of `polar.py`.  Rationals stand in for floating-point numbers.
-/

/-- Python `min` over a numpy series; `min` of an empty sequence raises in
Python, callers guard for nonemptiness (the default 0 is never reached in
guarded positions). -/
def npmin (l : List ℚ) : ℚ :=
  match l with
  | [] => 0
  | a :: r => r.foldl min a

/-- Python `max` over a numpy series, same conventions as `npmin`. -/
def npmax (l : List ℚ) : ℚ :=
  match l with
  | [] => 0
  | a :: r => r.foldl max a

/-- `numpy.max(numpy.abs(l))` as used by `get_seasons`. -/
def npmaxabs (l : List ℚ) : ℚ :=
  match l with
  | [] => 0
  | a :: r => (r.map abs).foldl max |a|

/-- Sum of squares of a vector; `numpy.linalg.norm` is the square root of this. -/
def sumSq (l : List ℚ) : ℚ := (l.map (fun x => x * x)).sum

/-- `numpy.roll l i`: circular shift of the entries `i` places to the right,
expressed as a left rotation by `length - i % length`. -/
def nproll (l : List ℚ) (i : ℕ) : List ℚ := l.rotate (l.length - i % l.length)

/-- Elementwise difference `a - b` of two numpy 1-D arrays, with numpy's
size-1 broadcasting.  Incompatible shapes raise in numpy; callers test the
shapes and the `[]` default is never reached in guarded positions. -/
def npsub (a b : List ℚ) : List ℚ :=
  if a.length = b.length then a.zipWith (fun x y => x - y) b
  else if b.length = 1 then a.map (fun x => x - b.headI)
  else if a.length = 1 then b.map (fun y => a.headI - y)
  else []

/-- `numpy.argmax`, first index attaining the maximum (auxiliary loop). -/
def npargmaxAux : List ℚ → ℚ → ℕ → ℕ → ℕ
  | [], _, bi, _ => bi
  | x :: r, best, bi, i =>
      if best < x then npargmaxAux r x i (i + 1) else npargmaxAux r best bi (i + 1)

/-- `numpy.argmax`: index of the first occurrence of the maximal entry. -/
def npargmax (l : List ℚ) : ℕ := npargmaxAux l l.headI 0 0

/-- One iteration of the shift-search loop of `symmetric_distance`
(lines 107-114 of `polar.py`): `dist` starts at `numpy.inf` and `pos` at
`numpy.inf`, modelled by the `none` state; a finite `temp` is always below
`inf`, and the update uses the strict comparison `temp < dist` of the source. -/
def alignStep (f : ℕ → ℚ) : Option (ℚ × ℕ) → ℕ → Option (ℚ × ℕ) := fun s i =>
  match s with
  | none => some (f i, i)
  | some (d, p) => if f i < d then some (f i, i) else some (d, p)

/-- The full `for i in range(n)` search loop of `symmetric_distance`. -/
def alignSearch (f : ℕ → ℚ) (n : ℕ) : Option (ℚ × ℕ) :=
  (List.range n).foldl (alignStep f) none

/-- The external collaborators of `polar.py`: the cleaning function
`fixseries`, the polar builders `create_polygon` / `get_list_of_points`
(from the repository's `utils` module, whose source is not part of the
analysed tree), and the shapely geometry engine operating on an abstract
polygon type `Poly`.  Field names follow the attribute names used in the
source. -/
structure GeomEnv (Poly : Type) where
  fixseries : List ℚ → List ℚ
  create_polygon : List ℚ → Poly
  get_list_of_points : List ℚ → List ℚ × List ℚ
  Polygon : List (ℚ × ℚ) → Poly
  is_valid : Poly → Bool
  buffer0 : Poly → Poly
  area : Poly → ℚ
  intersection : Poly → Poly → Poly
  symmetric_difference : Poly → Poly → Poly
  envelope_exterior_xy : Poly → List ℚ × List ℚ
  exterior_xy : Poly → List ℚ × List ℚ
  centroid_xy : Poly → ℚ × ℚ
  minimum_rotated_rectangle : Poly → Poly
  bounds : Poly → ℚ × ℚ × ℚ × ℚ
  sqrt : ℚ → ℚ

variable {Poly : Type}

/-- `numpy.linalg.norm`: square root of the sum of squares; the square root
is the engine's floating-point `sqrt`. -/
def npnorm (env : GeomEnv Poly) (l : List ℚ) : ℚ := env.sqrt (sumSq l)

/-- The two-line repair idiom of the source: a polygon that fails `is_valid`
is replaced by its zero-buffer repair (`polygon.buffer(0)`). -/
def repair0 (env : GeomEnv Poly) (p : Poly) : Poly :=
  if env.is_valid p then p else env.buffer0 p

/-- `get_seasons` (polar.py lines 189-234): the four season quadrants of the
origin-symmetric bounding grid, returned in construction order
(top-left, top-right, bottom-left, bottom-right). -/
def get_seasons (env : GeomEnv Poly) (x y : List ℚ) : Poly × Poly × Poly × Poly :=
  let minX := -(npmaxabs x)
  let minY := -(npmaxabs y)
  let maxX := npmaxabs x
  let maxY := npmaxabs y
  let coord0 := (minX, maxY)
  let coord1 := ((0 : ℚ), maxY)
  let coord2 := (maxX, maxY)
  let coord3 := (minX, (0 : ℚ))
  let coord4 := ((0 : ℚ), (0 : ℚ))
  let coord5 := (maxX, (0 : ℚ))
  let coord6 := (minX, minY)
  let coord7 := ((0 : ℚ), minY)
  let coord8 := (maxX, minY)
  let polyTopLeft := env.Polygon [coord0, coord3, coord4, coord1, coord0]
  let polyTopRight := env.Polygon [coord1, coord2, coord5, coord4, coord1]
  let polyBottomLeft := env.Polygon [coord3, coord4, coord7, coord6, coord3]
  let polyBottomRight := env.Polygon [coord4, coord5, coord8, coord7, coord4]
  (polyTopLeft, polyTopRight, polyBottomLeft, polyBottomRight)

/-- `area_season` (polar.py lines 236-283): intersect the polygon with the
four season quadrants; note that the returned order (top-right, top-left,
bottom-left, bottom-right) swaps the first two relative to the construction
order of `get_seasons`. -/
def area_season (env : GeomEnv Poly) (timeseries : List ℚ) : ℚ × ℚ × ℚ × ℚ :=
  let ts := env.fixseries timeseries
  let polygon := env.create_polygon ts
  let xy := env.envelope_exterior_xy polygon
  let seasons := get_seasons env xy.1 xy.2
  let quaterPolyTopLeft := env.intersection seasons.1 polygon
  let quaterPolyTopRight := env.intersection seasons.2.1 polygon
  let quaterPolyBottomLeft := env.intersection seasons.2.2.1 polygon
  let quaterPolyBottomRight := env.intersection seasons.2.2.2 polygon
  (env.area quaterPolyTopRight, env.area quaterPolyTopLeft,
   env.area quaterPolyBottomLeft, env.area quaterPolyBottomRight)

/-- `ecc_metric` (polar.py lines 285-316): side ratio of the bounds of the
minimum rotated rectangle. -/
def ecc_metric (env : GeomEnv Poly) (timeseries : List ℚ) : ℚ :=
  let ts := env.fixseries timeseries
  let polygon := env.create_polygon ts
  let rrec := env.minimum_rotated_rectangle polygon
  let b := env.bounds rrec
  let axis1 := b.2.2.1 - b.1
  let axis2 := b.2.2.2 - b.2.1
  min axis1 axis2 / max axis1 axis2

/-- `angle` (polar.py lines 318-342): the angle at the first maximal radius. -/
def angle (env : GeomEnv Poly) (timeseries : List ℚ) : ℚ :=
  let ts := env.fixseries timeseries
  let pts := env.get_list_of_points ts
  pts.2.getD (npargmax pts.1) 0

/-- `gyration_radius` (polar.py lines 344-379).  The loop rebinds `dist` at
every iteration instead of appending to it, so after the loop `dist` holds a
single scalar, the distance of the LAST exterior point, and `numpy.mean` of
a scalar is that scalar.  An empty exterior would leave `dist = []`, whose
mean is numpy's nan, modelled by the default 0. -/
def gyration_radius (env : GeomEnv Poly) (timeseries : List ℚ) : ℚ :=
  let ts := env.fixseries timeseries
  let polygon := env.create_polygon ts
  let c := env.centroid_xy polygon
  let xy := env.exterior_xy polygon
  let dist := (List.range xy.1.length).foldl
    (fun (_ : Option ℚ) p =>
      some (env.sqrt ((xy.1.getD p 0 - c.1) * (xy.1.getD p 0 - c.1) +
        (xy.2.getD p 0 - c.2) * (xy.2.getD p 0 - c.2))))
    none
  match dist with
  | none => 0
  | some d => d

/-- Modelled from the spec: "mean Euclidean distance from each exterior ring
point to the polygon centroid" — the arithmetic mean over ALL boundary
points, i.e. the accumulating variant of the `gyration_radius` loop.  The
accumulating loop body is what the source's `dist = []` initialisation and
its docstring announce. -/
def gyration_radius_true_mean (env : GeomEnv Poly) (timeseries : List ℚ) : ℚ :=
  let ts := env.fixseries timeseries
  let polygon := env.create_polygon ts
  let c := env.centroid_xy polygon
  let xy := env.exterior_xy polygon
  let dist := (List.range xy.1.length).map
    (fun p => env.sqrt ((xy.1.getD p 0 - c.1) * (xy.1.getD p 0 - c.1) +
      (xy.2.getD p 0 - c.2) * (xy.2.getD p 0 - c.2)))
  dist.sum / dist.length

/-- `polar_balance` (polar.py lines 381-404): population standard deviation
(`numpy.std`) of the four seasonal areas. -/
def polar_balance (env : GeomEnv Poly) (timeseries : List ℚ) : ℚ :=
  let ts := env.fixseries timeseries
  let areas := area_season env ts
  let m := (areas.1 + areas.2.1 + areas.2.2.1 + areas.2.2.2) / 4
  env.sqrt (((areas.1 - m) * (areas.1 - m) + (areas.2.1 - m) * (areas.2.1 - m) +
    (areas.2.2.1 - m) * (areas.2.2.1 - m) + (areas.2.2.2 - m) * (areas.2.2.2 - m)) / 4)

/-- `area_ts` (polar.py lines 406-431): area of the polar polygon. -/
def area_ts (env : GeomEnv Poly) (timeseries : List ℚ) : ℚ :=
  let ts := env.fixseries timeseries
  let polygon := env.create_polygon ts
  env.area polygon

/-- `ts_polar` (polar.py lines 8-70): the metrics facade.  A cleaned series
of size 1 short-circuits to the all-ones 9-vector (`numpy.ones((1, 9))`
holds nine ones); otherwise the nine extractor values are assembled in the
fixed order of line 70.  The optional plotting branch only draws and never
changes the returned vector, so it is not modelled. -/
def ts_polar (env : GeomEnv Poly) (timeseries : List ℚ) : List ℚ :=
  let ts := env.fixseries timeseries
  if ts.length = 1 then [1, 1, 1, 1, 1, 1, 1, 1, 1]
  else
    let circle := ecc_metric env ts
    let gyro := gyration_radius env ts
    let area := area_ts env ts
    let areas := area_season env ts
    let balance := polar_balance env ts
    let ang := angle env ts
    [area, areas.1, areas.2.1, areas.2.2.1, areas.2.2.2, circle, gyro, balance, ang]

/-- `symmetric_distance` (polar.py lines 72-134).  Errors (Python
exceptions) are modelled by `none`:  Python's `min`/`max` raise on an empty
cleaned series, and numpy's subtraction raises when the two lengths differ
and neither is 1 (size-1 broadcasting).  Since every loop iteration
subtracts lists of the same two lengths, the broadcast failure of the first
iteration is tested once up front.  The `none` arm of the search result
models `numpy.roll(ts, numpy.inf)` raising when the loop body never ran; it
is unreachable for a nonempty first series. -/
def symmetric_distance (env : GeomEnv Poly) (time_series_1 time_series_2 : List ℚ) :
    Option ℚ :=
  let ts1 := env.fixseries time_series_1
  let ts2 := env.fixseries time_series_2
  if ts1 = [] ∨ ts2 = [] then none
  else
    let polygon_1 := repair0 env (env.create_polygon ts1)
    if npmin ts1 > npmax ts2 ∨ npmin ts2 > npmax ts1 then
      some (env.area (env.symmetric_difference polygon_1 (env.create_polygon ts2)))
    else
      if ts1.length = ts2.length ∨ ts1.length = 1 ∨ ts2.length = 1 then
        match alignSearch (fun i => npnorm env (npsub ts1 (nproll ts2 i))) ts1.length with
        | none => none
        | some dp =>
          let shifted := nproll ts2 dp.2
          some (env.area (env.symmetric_difference polygon_1
            (repair0 env (env.create_polygon shifted))))
      else none

/-!
### A concrete rational planar-geometry backend

The spec (§9) asks for the boolean geometry to be expressible through "a
fake planar-geometry backend (e.g., simple polygon area via shoelace
formula)".  The backend below works on polygons with rational vertices:
areas via the shoelace formula and intersections via Sutherland-Hodgman
clipping, which is exact when the clip polygon is convex — every clip
operand used by the theorems of this file is convex.
-/

/-- Signed side of `r` relative to the directed line `p → q`
(positive on the left). -/
def crossSide (p q r : ℚ × ℚ) : ℚ :=
  (q.1 - p.1) * (r.2 - p.2) - (q.2 - p.2) * (r.1 - p.1)

/-- Twice the signed area of a polygon given by its vertex list (a closing
repeat of the first vertex is harmless: its term vanishes). -/
def shoelace2 (l : List (ℚ × ℚ)) : ℚ :=
  ((l.zip (l.rotate 1)).map (fun ab => ab.1.1 * ab.2.2 - ab.2.1 * ab.1.2)).sum

/-- Absolute polygon area. -/
def polyArea (l : List (ℚ × ℚ)) : ℚ := |shoelace2 l| / 2

/-- Reorient a vertex list counterclockwise. -/
def ccwOrient (l : List (ℚ × ℚ)) : List (ℚ × ℚ) :=
  if shoelace2 l < 0 then l.reverse else l

/-- Intersection of segment `a b` with the clipping line, given the two
signed sides `sa`, `sb` (used only when they differ in sign). -/
def interPt (a b : ℚ × ℚ) (sa sb : ℚ) : ℚ × ℚ :=
  let t := sa / (sa - sb)
  (a.1 + t * (b.1 - a.1), a.2 + t * (b.2 - a.2))

/-- Clip a subject polygon by the half-plane left of `p → q`
(one Sutherland-Hodgman step). -/
def clipEdge (p q : ℚ × ℚ) (subj : List (ℚ × ℚ)) : List (ℚ × ℚ) :=
  (subj.zip (subj.rotate 1)).foldl (fun acc ab =>
    let sa := crossSide p q ab.1
    let sb := crossSide p q ab.2
    if 0 ≤ sb then
      if sa < 0 then acc ++ [interPt ab.1 ab.2 sa sb, ab.2] else acc ++ [ab.2]
    else
      if 0 ≤ sa then acc ++ [interPt ab.1 ab.2 sa sb] else acc) []

/-- Sutherland-Hodgman clipping of `subj` by the convex polygon `c`. -/
def clipConvex (subj c : List (ℚ × ℚ)) : List (ℚ × ℚ) :=
  let cc := ccwOrient c
  (cc.zip (cc.rotate 1)).foldl (fun s pq => clipEdge pq.1 pq.2 s) subj

/-- Area of the intersection of two polygons, the second convex. -/
def interArea (subj c : List (ℚ × ℚ)) : ℚ := polyArea (clipConvex subj c)

/-- Concrete polygons: either a vertex ring, or a region that resulted from
a boolean operation and is tracked by its area alone (the module only ever
asks boolean-operation results for their `.area`). -/
inductive PolyRep where
  | ring (pts : List (ℚ × ℚ))
  | region (a : ℚ)

/-- Vertex list of a concrete polygon. -/
def PolyRep.pts : PolyRep → List (ℚ × ℚ)
  | .ring l => l
  | .region _ => []

/-- Area of a concrete polygon. -/
def PolyRep.areaVal : PolyRep → ℚ
  | .ring l => polyArea l
  | .region a => a

/-- Modelled from the spec: the Polar Mapper ring (spec §4.1) — index `i`
maps to angle `2π·i/N`, values are shifted by `-min` when some value is
negative, and the ring closes by repeating the first point.  The general
mapper of the missing `utils` module needs transcendental `cos`/`sin`; for
series of length 4 the angles are `0, π/2, π, 3π/2`, whose cosines and
sines are exactly `0, ±1`, so the ring is rational.  The concrete engine is
only ever applied to length-4 series; other lengths yield the empty ring. -/
def polarRing (ts : List ℚ) : List (ℚ × ℚ) :=
  let v := if npmin ts < 0 then ts.map (fun x => x - npmin ts) else ts
  match v with
  | [a, b, c, d] => [(a, 0), (0, b), (-c, 0), (0, -d), (a, 0)]
  | _ => []

/-- Axis-aligned bounds `(minx, miny, maxx, maxy)` of a vertex list. -/
def bbox (l : List (ℚ × ℚ)) : ℚ × ℚ × ℚ × ℚ :=
  (npmin (l.map Prod.fst), npmin (l.map Prod.snd),
   npmax (l.map Prod.fst), npmax (l.map Prod.snd))

/-- The closed exterior ring of the axis-aligned envelope, counterclockwise
from `(minx, miny)` as shapely produces it. -/
def bboxRing (l : List (ℚ × ℚ)) : List (ℚ × ℚ) :=
  let b := bbox l
  [(b.1, b.2.1), (b.2.2.1, b.2.1), (b.2.2.1, b.2.2.2), (b.1, b.2.2.2), (b.1, b.2.1)]

/-- Centroid of a polygon ring by the standard signed-area formula. -/
def ringCentroid (l : List (ℚ × ℚ)) : ℚ × ℚ :=
  let s := shoelace2 l
  let cx := ((l.zip (l.rotate 1)).map
    (fun ab => (ab.1.1 + ab.2.1) * (ab.1.1 * ab.2.2 - ab.2.1 * ab.1.2))).sum
  let cy := ((l.zip (l.rotate 1)).map
    (fun ab => (ab.1.2 + ab.2.2) * (ab.1.1 * ab.2.2 - ab.2.1 * ab.1.2))).sum
  (cx / (3 * s), cy / (3 * s))

/-- The concrete rational engine.  `fixseries` is the identity (the inputs
fed to it here are already clean), `is_valid` is constantly `true` (every
polygon this engine is applied to in this file is a simple star-shaped
ring, which shapely reports valid, so `buffer0` is the identity as well),
and `sqrt` is the identity: `symmetric_distance` uses norms only through
`<`-comparisons whose outcome is invariant under any strictly increasing
map, and the selected shift — not the norm value — reaches the result.
`minimum_rotated_rectangle` and the angle list of `get_list_of_points` are
placeholders never used by the theorems about this engine. -/
def ratEnv : GeomEnv PolyRep where
  fixseries := id
  create_polygon := fun ts => .ring (polarRing ts)
  get_list_of_points := fun ts =>
    (ts, (List.range ts.length).map (fun i => (i : ℚ) / ts.length))
  Polygon := fun l => .ring l
  is_valid := fun _ => true
  buffer0 := id
  area := PolyRep.areaVal
  intersection := fun p q => .region (interArea q.pts p.pts)
  symmetric_difference := fun p q =>
    .region (p.areaVal + q.areaVal - 2 * interArea p.pts q.pts)
  envelope_exterior_xy := fun p =>
    ((bboxRing p.pts).map Prod.fst, (bboxRing p.pts).map Prod.snd)
  exterior_xy := fun p => (p.pts.map Prod.fst, p.pts.map Prod.snd)
  centroid_xy := fun p => ringCentroid p.pts
  minimum_rotated_rectangle := id
  bounds := fun p => bbox p.pts
  sqrt := id

/-- A minimal engine over the one-point polygon type, used to instantiate
universally quantified theorems on concrete inputs.  Its exterior ring is
the closed triangle `(0,0), (3,0), (0,3)` whose centroid is `(1,1)`, and
its minimum-rotated-rectangle bounds describe a 2 x 1 rectangle; `sqrt` is
the identity (strictly increasing, see `ratEnv`). -/
def unitEnv : GeomEnv Unit where
  fixseries := id
  create_polygon := fun _ => ()
  get_list_of_points := fun ts => (ts, ts)
  Polygon := fun _ => ()
  is_valid := fun _ => true
  buffer0 := fun _ => ()
  area := fun _ => 5
  intersection := fun _ _ => ()
  symmetric_difference := fun _ _ => ()
  envelope_exterior_xy := fun _ => ([0, 3, 0, 0], [0, 0, 3, 0])
  exterior_xy := fun _ => ([0, 3, 0, 0], [0, 0, 3, 0])
  centroid_xy := fun _ => (1, 1)
  minimum_rotated_rectangle := fun _ => ()
  bounds := fun _ => (0, 0, 2, 1)
  sqrt := id

/-- An engine whose polygon type records only validity (`true` = valid):
`create_polygon` marks the series `[1, 1]` valid and everything else
invalid, repair always yields a valid polygon, and the area of a boolean
operation tells whether both operands were valid (0) or not (1).  It
observes whether `symmetric_distance` hands an unrepaired invalid polygon
to `symmetric_difference`. -/
def validityEnv : GeomEnv Bool where
  fixseries := id
  create_polygon := fun ts => decide (ts = [1, 1])
  get_list_of_points := fun ts => (ts, ts)
  Polygon := fun _ => true
  is_valid := fun p => p
  buffer0 := fun _ => true
  area := fun p => if p then 0 else 1
  intersection := fun p q => p && q
  symmetric_difference := fun p q => p && q
  envelope_exterior_xy := fun _ => ([], [])
  exterior_xy := fun _ => ([], [])
  centroid_xy := fun _ => (0, 0)
  minimum_rotated_rectangle := id
  bounds := fun _ => (0, 0, 1, 1)
  sqrt := id

/-- Modelled from the spec: "if self-intersecting (`is_valid` false), [the
polygon] must be repaired via a zero-buffer operation before any metric or
boolean operation is applied to it" — the variant of `symmetric_distance`
in which polygon B is also repaired on the fast path, so that every operand
of `symmetric_difference` has gone through the repair idiom.  Identical to
`symmetric_distance` elsewhere. -/
def symmetric_distance_spec_repair (env : GeomEnv Poly)
    (time_series_1 time_series_2 : List ℚ) : Option ℚ :=
  let ts1 := env.fixseries time_series_1
  let ts2 := env.fixseries time_series_2
  if ts1 = [] ∨ ts2 = [] then none
  else
    let polygon_1 := repair0 env (env.create_polygon ts1)
    if npmin ts1 > npmax ts2 ∨ npmin ts2 > npmax ts1 then
      some (env.area (env.symmetric_difference polygon_1
        (repair0 env (env.create_polygon ts2))))
    else
      if ts1.length = ts2.length ∨ ts1.length = 1 ∨ ts2.length = 1 then
        match alignSearch (fun i => npnorm env (npsub ts1 (nproll ts2 i))) ts1.length with
        | none => none
        | some dp =>
          let shifted := nproll ts2 dp.2
          some (env.area (env.symmetric_difference polygon_1
            (repair0 env (env.create_polygon shifted))))
      else none

/-!
### Properties of the numeric helpers
-/

/-- The search loop returns the first index attaining the minimal value:
the strict `temp < dist` update keeps the earliest of equally good shifts. -/
lemma alignSearch_spec (f : ℕ → ℚ) :
    ∀ n : ℕ, 0 < n → ∃ p : ℕ, alignSearch f n = some (f p, p) ∧ p < n ∧
      (∀ i, i < n → f p ≤ f i) ∧ (∀ j, j < p → f p < f j) := by
  intro n
  induction n with
  | zero => intro h; exact absurd h (lt_irrefl 0)
  | succ m ih =>
    intro _
    have hstep : alignSearch f (m + 1) = alignStep f (alignSearch f m) m := by
      unfold alignSearch
      rw [List.range_succ, List.foldl_append, List.foldl_cons, List.foldl_nil]
    rcases Nat.eq_zero_or_pos m with hm | hm
    · subst hm
      refine ⟨0, ?_, Nat.one_pos, ?_, ?_⟩
      · rw [hstep]
        rfl
      · intro i hi
        interval_cases i
        exact le_refl _
      · intro j hj
        exact absurd hj (Nat.not_lt_zero j)
    · obtain ⟨p, hs, hp, hmin, hfirst⟩ := ih hm
      by_cases hc : f m < f p
      · refine ⟨m, ?_, Nat.lt_succ_self m, ?_, ?_⟩
        · rw [hstep, hs]
          simp [alignStep, hc]
        · intro i hi
          rcases Nat.lt_succ_iff_lt_or_eq.mp hi with h | h
          · exact le_of_lt (lt_of_lt_of_le hc (hmin i h))
          · subst h
            exact le_refl _
        · intro j hj
          exact lt_of_lt_of_le hc (hmin j hj)
      · refine ⟨p, ?_, Nat.lt_succ_of_lt hp, ?_, hfirst⟩
        · rw [hstep, hs]
          simp [alignStep, hc]
        · intro i hi
          rcases Nat.lt_succ_iff_lt_or_eq.mp hi with h | h
          · exact hmin i h
          · subst h
            exact not_lt.mp hc

lemma nproll_length (l : List ℚ) (i : ℕ) : (nproll l i).length = l.length := by
  simp [nproll]

lemma nproll_zero (l : List ℚ) : nproll l 0 = l := by
  simp [nproll, List.rotate_length]

/-- Rolling right by `p` undoes rolling right by `(n - p) % n`. -/
lemma nproll_cancel (l : List ℚ) (p : ℕ) (hp : p < l.length) :
    nproll (nproll l ((l.length - p) % l.length)) p = l := by
  rcases Nat.eq_zero_or_pos p with h0 | hpos
  · subst h0
    rw [Nat.sub_zero, Nat.mod_self, nproll_zero, nproll_zero]
  · have h1 : (l.length - p) % l.length = l.length - p := Nat.mod_eq_of_lt (by omega)
    have h2 : nproll l (l.length - p) = l.rotate p := by
      unfold nproll
      rw [h1]
      congr 1
      omega
    rw [h1, h2]
    unfold nproll
    rw [List.length_rotate, Nat.mod_eq_of_lt hp, List.rotate_rotate]
    have h3 : p + (l.length - p) = l.length := by omega
    rw [h3, List.rotate_length]

lemma sumSq_cons (x : ℚ) (l : List ℚ) : sumSq (x :: l) = x * x + sumSq l := by
  simp [sumSq]

lemma sumSq_rotate (l : List ℚ) (k : ℕ) : sumSq (l.rotate k) = sumSq l := by
  unfold sumSq
  rw [List.map_rotate]
  exact (List.rotate_perm _ _).sum_eq

lemma sumSq_zipWith_sub_comm : ∀ u v : List ℚ,
    sumSq (List.zipWith (fun x y => x - y) u v) =
      sumSq (List.zipWith (fun x y => x - y) v u) := by
  intro u
  induction u with
  | nil => intro v; cases v <;> simp [sumSq]
  | cons x xs ih =>
    intro v
    cases v with
    | nil => simp [sumSq]
    | cons y ys =>
      simp only [List.zipWith_cons_cons, sumSq_cons]
      rw [ih ys]
      ring_nf

lemma npsub_eq_zipWith (a b : List ℚ) (h : a.length = b.length) :
    npsub a b = List.zipWith (fun x y => x - y) a b := by
  simp [npsub, h]

/-- The element-wise difference of `b` with `a` rolled by `i` is, up to
sign (which squaring erases) and a common rotation (which summing erases),
the difference of `a` with `b` rolled by `(n - i) % n`. -/
lemma sumSq_sub_roll_symm (a b : List ℚ) (h : a.length = b.length)
    (i : ℕ) (hi : i < a.length) :
    sumSq (npsub b (nproll a i)) =
      sumSq (npsub a (nproll b ((a.length - i) % a.length))) := by
  have hl1 : b.length = (nproll a i).length := by rw [nproll_length, h]
  have hl2 : a.length = (nproll b ((a.length - i) % a.length)).length := by
    rw [nproll_length, h]
  rw [npsub_eq_zipWith _ _ hl1, npsub_eq_zipWith _ _ hl2]
  rcases Nat.eq_zero_or_pos i with h0 | hpos
  · subst h0
    rw [nproll_zero, Nat.sub_zero, Nat.mod_self, nproll_zero]
    exact sumSq_zipWith_sub_comm b a
  · have hm : (a.length - i) % a.length = a.length - i := Nat.mod_eq_of_lt (by omega)
    have e1 : nproll a i = a.rotate (a.length - i) := by
      unfold nproll
      rw [Nat.mod_eq_of_lt hi]
    have e2 : nproll b ((a.length - i) % a.length) = b.rotate i := by
      unfold nproll
      rw [hm, ← h, Nat.mod_eq_of_lt (by omega : a.length - i < a.length)]
      congr 1
      omega
    rw [e1, e2]
    calc sumSq (List.zipWith (fun x y => x - y) b (a.rotate (a.length - i)))
        = sumSq ((List.zipWith (fun x y => x - y) b (a.rotate (a.length - i))).rotate i) :=
          (sumSq_rotate _ _).symm
      _ = sumSq (List.zipWith (fun x y => x - y) (b.rotate i)
            ((a.rotate (a.length - i)).rotate i)) := by
          rw [List.zipWith_rotate_distrib _ _ _ _ (by rw [List.length_rotate, h])]
      _ = sumSq (List.zipWith (fun x y => x - y) (b.rotate i) a) := by
          rw [List.rotate_rotate]
          have h3 : a.length - i + i = a.length := by omega
          rw [h3, List.rotate_length]
      _ = sumSq (List.zipWith (fun x y => x - y) a (b.rotate i)) :=
          sumSq_zipWith_sub_comm _ _

/-- The index map `j ↦ (n - j) % n` on `[0, n)` is an involution. -/
lemma mod_reflect (n j p : ℕ) (hj : j < n) (hp : p < n) :
    (n - j) % n = p ↔ j = (n - p) % n := by
  rcases Nat.eq_zero_or_pos j with hj0 | hjpos <;>
    rcases Nat.eq_zero_or_pos p with hp0 | hppos
  · subst hj0; subst hp0
    simp [Nat.mod_self]
  · subst hj0
    rw [Nat.sub_zero, Nat.mod_self, Nat.mod_eq_of_lt (by omega : n - p < n)]
    omega
  · subst hp0
    rw [Nat.mod_eq_of_lt (by omega : n - j < n), Nat.sub_zero, Nat.mod_self]
    omega
  · rw [Nat.mod_eq_of_lt (by omega : n - j < n), Nat.mod_eq_of_lt (by omega : n - p < n)]
    omega

/-!
### Path characterizations of `symmetric_distance`
-/

/-- The fast path: disjoint value ranges, no alignment search, polygon B
built from the unshifted series and used without a validity check. -/
lemma symmetric_distance_fast (env : GeomEnv Poly) (A B : List ℚ)
    (ha : env.fixseries A ≠ []) (hb : env.fixseries B ≠ [])
    (hcond : npmin (env.fixseries A) > npmax (env.fixseries B) ∨
             npmin (env.fixseries B) > npmax (env.fixseries A)) :
    symmetric_distance env A B =
      some (env.area (env.symmetric_difference
        (repair0 env (env.create_polygon (env.fixseries A)))
        (env.create_polygon (env.fixseries B)))) := by
  simp only [symmetric_distance]
  rw [if_neg (by simp [ha, hb]), if_pos hcond]

/-- The alignment path, given the outcome of the search loop. -/
lemma symmetric_distance_aligned (env : GeomEnv Poly) (A B : List ℚ)
    (ha : env.fixseries A ≠ []) (hb : env.fixseries B ≠ [])
    (hcond : ¬ (npmin (env.fixseries A) > npmax (env.fixseries B) ∨
                npmin (env.fixseries B) > npmax (env.fixseries A)))
    (hbc : (env.fixseries A).length = (env.fixseries B).length ∨
           (env.fixseries A).length = 1 ∨ (env.fixseries B).length = 1)
    (d : ℚ) (p : ℕ)
    (hsearch : alignSearch (fun i => npnorm env (npsub (env.fixseries A)
        (nproll (env.fixseries B) i))) (env.fixseries A).length = some (d, p)) :
    symmetric_distance env A B =
      some (env.area (env.symmetric_difference
        (repair0 env (env.create_polygon (env.fixseries A)))
        (repair0 env (env.create_polygon (nproll (env.fixseries B) p))))) := by
  simp only [symmetric_distance]
  rw [if_neg (by simp [ha, hb]), if_neg hcond, if_pos hbc, hsearch]

/-- The error path: overlapping ranges and broadcast-incompatible lengths. -/
lemma symmetric_distance_incompatible (env : GeomEnv Poly) (A B : List ℚ)
    (ha : env.fixseries A ≠ []) (hb : env.fixseries B ≠ [])
    (hcond : ¬ (npmin (env.fixseries A) > npmax (env.fixseries B) ∨
                npmin (env.fixseries B) > npmax (env.fixseries A)))
    (hbc : ¬ ((env.fixseries A).length = (env.fixseries B).length ∨
              (env.fixseries A).length = 1 ∨ (env.fixseries B).length = 1)) :
    symmetric_distance env A B = none := by
  simp only [symmetric_distance]
  rw [if_neg (by simp [ha, hb]), if_neg hcond, if_neg hbc]

/-!
### The claims
-/

/-- C1: for every input series, `ts_polar` returns exactly 9 values: the
all-ones 9-vector when the cleaned series has length 1 (no geometry is
built), and otherwise, in the fixed order
`[area, area_q1, area_q2, area_q3, area_q4, eccentricity, gyration_radius,
polar_balance, angle]`, the values of the corresponding metric extractors
applied to the cleaned series. -/
theorem ts_polar_facade_spec (env : GeomEnv Poly) (t : List ℚ) :
    (ts_polar env t).length = 9 ∧
    ((env.fixseries t).length = 1 → ts_polar env t = [1, 1, 1, 1, 1, 1, 1, 1, 1]) ∧
    ((env.fixseries t).length ≠ 1 →
      ts_polar env t =
        [area_ts env (env.fixseries t),
         (area_season env (env.fixseries t)).1,
         (area_season env (env.fixseries t)).2.1,
         (area_season env (env.fixseries t)).2.2.1,
         (area_season env (env.fixseries t)).2.2.2,
         ecc_metric env (env.fixseries t),
         gyration_radius env (env.fixseries t),
         polar_balance env (env.fixseries t),
         angle env (env.fixseries t)]) := by
  by_cases h : (env.fixseries t).length = 1
  · exact ⟨by simp [ts_polar, h], fun _ => by simp [ts_polar, h],
      fun hne => absurd h hne⟩
  · exact ⟨by simp [ts_polar, h], fun h1 => absurd h1 h, fun _ => by simp [ts_polar, h]⟩

/-- Witness for C1: a length-1 cleaned series yields the all-ones vector,
and a length-2 series yields the nine extractor values. -/
theorem ts_polar_facade_spec_witness :
    ts_polar unitEnv [5] = [1, 1, 1, 1, 1, 1, 1, 1, 1] ∧
    ts_polar unitEnv [3, 1] =
      [area_ts unitEnv [3, 1],
       (area_season unitEnv [3, 1]).1,
       (area_season unitEnv [3, 1]).2.1,
       (area_season unitEnv [3, 1]).2.2.1,
       (area_season unitEnv [3, 1]).2.2.2,
       ecc_metric unitEnv [3, 1],
       gyration_radius unitEnv [3, 1],
       polar_balance unitEnv [3, 1],
       angle unitEnv [3, 1]] :=
  ⟨(ts_polar_facade_spec unitEnv [5]).2.1 (by decide),
   (ts_polar_facade_spec unitEnv [3, 1]).2.2 (by decide)⟩

/-- C2: the claim says `gyration_radius` returns the mean distance over ALL
boundary points, as the source's own docstring ("average distance between
each point ... and the shape's centroid") and its `dist = []` accumulator
initialisation announce; the code instead rebinds `dist` each iteration and
so returns only the LAST exterior point's distance.  On an engine whose
exterior ring is the closed triangle `(0,0), (3,0), (0,3)` with centroid
`(1,1)`, the code yields the last (closing) point's distance 2 while the
mean over the ring is `7/2`. -/
theorem gyration_radius_last_point_bug :
    gyration_radius unitEnv [1, 2, 3] = 2 ∧
    gyration_radius_true_mean unitEnv [1, 2, 3] = 7 / 2 ∧
    gyration_radius unitEnv [1, 2, 3] ≠ gyration_radius_true_mean unitEnv [1, 2, 3] :=
  ⟨by with_unfolding_all decide, by with_unfolding_all decide,
   by with_unfolding_all decide⟩

/-- C3: `ecc_metric` is `min(width, height) / max(width, height)` of the
minimum-rotated-rectangle bounds; whenever those bounds are well formed
(min ≤ max on both axes) and the rectangle is not a single point, the result
lies in `[0, 1]`, and a degenerate rectangle (one axis 0) yields 0. -/
theorem ecc_metric_range_spec (env : GeomEnv Poly) (ts : List ℚ)
    (minx miny maxx maxy : ℚ)
    (hb : env.bounds (env.minimum_rotated_rectangle
            (env.create_polygon (env.fixseries ts))) = (minx, miny, maxx, maxy))
    (hx : minx ≤ maxx) (hy : miny ≤ maxy)
    (hpos : 0 < max (maxx - minx) (maxy - miny)) :
    0 ≤ ecc_metric env ts ∧ ecc_metric env ts ≤ 1 ∧
      ((maxx - minx = 0 ∨ maxy - miny = 0) → ecc_metric env ts = 0) := by
  have he : ecc_metric env ts =
      min (maxx - minx) (maxy - miny) / max (maxx - minx) (maxy - miny) := by
    simp [ecc_metric, hb]
  have h1 : (0 : ℚ) ≤ maxx - minx := by linarith
  have h2 : (0 : ℚ) ≤ maxy - miny := by linarith
  refine ⟨?_, ?_, ?_⟩
  · rw [he]
    exact div_nonneg (le_min h1 h2) (le_of_lt hpos)
  · rw [he]
    exact (div_le_one hpos).mpr (min_le_max)
  · intro hdeg
    rw [he]
    have hmin0 : min (maxx - minx) (maxy - miny) = 0 := by
      rcases hdeg with h | h
      · rw [h]
        exact min_eq_left h2
      · rw [h]
        exact min_eq_right h1
    rw [hmin0, zero_div]

/-- Witness for C3 at the engine whose minimum-rotated-rectangle bounds are
the 2 x 1 rectangle `(0, 0, 2, 1)`. -/
theorem ecc_metric_range_spec_witness :
    0 ≤ ecc_metric unitEnv [1, 2] ∧ ecc_metric unitEnv [1, 2] ≤ 1 ∧
      (((2 : ℚ) - 0 = 0 ∨ (1 : ℚ) - 0 = 0) → ecc_metric unitEnv [1, 2] = 0) :=
  ecc_metric_range_spec unitEnv [1, 2] 0 0 2 1 (by decide) (by decide) (by decide)
    (by with_unfolding_all decide)

/-- C4 counterexample: the claim asks that every operand of
`symmetric_difference` be valid (repaired when found invalid) — for polygon
A, and for polygon B on both paths.  On the fast path the code performs no
validity check on polygon B: on the validity-observing engine, polygon B of
the series `[10, 10]` is invalid, and the run differs from the
fully repairing spec variant. -/
theorem symmetric_distance_fastpath_no_repair_cex :
    validityEnv.is_valid (validityEnv.create_polygon (validityEnv.fixseries [10, 10]))
      = false ∧
    symmetric_distance validityEnv [1, 1] [10, 10] ≠
      symmetric_distance_spec_repair validityEnv [1, 1] [10, 10] :=
  ⟨by decide, by with_unfolding_all decide⟩

/-- C4 (amended): polygon A is repaired when invalid, and polygon B is
repaired on the alignment path; on the fast path polygon B is used as
constructed without a validity check, so the code agrees with the fully
repairing specification exactly when B's polygon is already valid. -/
theorem symmetric_distance_repair_amended (env : GeomEnv Poly) (A B : List ℚ)
    (hv : env.is_valid (env.create_polygon (env.fixseries B)) = true) :
    symmetric_distance env A B = symmetric_distance_spec_repair env A B := by
  have hrep : repair0 env (env.create_polygon (env.fixseries B)) =
      env.create_polygon (env.fixseries B) := by
    simp [repair0, hv]
  simp only [symmetric_distance, symmetric_distance_spec_repair, hrep]

/-- Witness for the amended C4: with a valid polygon B the two runs agree. -/
theorem symmetric_distance_repair_amended_witness :
    symmetric_distance validityEnv [1, 1] [1, 1] =
      symmetric_distance_spec_repair validityEnv [1, 1] [1, 1] :=
  symmetric_distance_repair_amended validityEnv [1, 1] [1, 1] (by decide)

/-- C5: when the cleaned value ranges are disjoint
(`min A > max B` or `min B > max A`), `symmetric_distance` skips the
alignment search and returns the symmetric-difference area of polygon A
(repaired if invalid) with the polygon built from the unshifted cleaned B. -/
theorem symmetric_distance_fast_path_spec (env : GeomEnv Poly) (A B : List ℚ)
    (ha : env.fixseries A ≠ []) (hb : env.fixseries B ≠ [])
    (hcond : npmin (env.fixseries A) > npmax (env.fixseries B) ∨
             npmin (env.fixseries B) > npmax (env.fixseries A)) :
    symmetric_distance env A B =
      some (env.area (env.symmetric_difference
        (repair0 env (env.create_polygon (env.fixseries A)))
        (env.create_polygon (env.fixseries B)))) :=
  symmetric_distance_fast env A B ha hb hcond

/-- Witness for C5 on the spec's concrete scenario `A = [1,1,1,1]`,
`B = [10,10,10,10]` (`min B > max A`). -/
theorem symmetric_distance_fast_path_spec_witness :
    symmetric_distance unitEnv [1, 1, 1, 1] [10, 10, 10, 10] =
      some (unitEnv.area (unitEnv.symmetric_difference
        (repair0 unitEnv (unitEnv.create_polygon [1, 1, 1, 1]))
        (unitEnv.create_polygon [10, 10, 10, 10]))) :=
  symmetric_distance_fast_path_spec unitEnv [1, 1, 1, 1] [10, 10, 10, 10]
    (by decide) (by decide) (by with_unfolding_all decide)

/-- C6: with overlapping ranges and equal cleaned lengths,
`symmetric_distance` examines every shift in `[0, len A)`, selects the
first shift attaining the minimal Euclidean norm of `A - roll(B, i)` (the
strict `<` update makes the earliest of equally good shifts win), rolls B
by it and returns the symmetric-difference area of the two polygons. -/
theorem symmetric_distance_alignment_spec (env : GeomEnv Poly) (A B : List ℚ)
    (ha : env.fixseries A ≠ [])
    (hlen : (env.fixseries A).length = (env.fixseries B).length)
    (hcond : ¬ (npmin (env.fixseries A) > npmax (env.fixseries B) ∨
                npmin (env.fixseries B) > npmax (env.fixseries A))) :
    ∃ p : ℕ, p < (env.fixseries A).length ∧
      (∀ i, i < (env.fixseries A).length →
        npnorm env (npsub (env.fixseries A) (nproll (env.fixseries B) p)) ≤
        npnorm env (npsub (env.fixseries A) (nproll (env.fixseries B) i))) ∧
      (∀ j, j < p →
        npnorm env (npsub (env.fixseries A) (nproll (env.fixseries B) p)) <
        npnorm env (npsub (env.fixseries A) (nproll (env.fixseries B) j))) ∧
      symmetric_distance env A B =
        some (env.area (env.symmetric_difference
          (repair0 env (env.create_polygon (env.fixseries A)))
          (repair0 env (env.create_polygon (nproll (env.fixseries B) p))))) := by
  have hn : 0 < (env.fixseries A).length := List.length_pos.mpr ha
  obtain ⟨p, hs, hp, hmin, hfirst⟩ := alignSearch_spec
    (fun i => npnorm env (npsub (env.fixseries A) (nproll (env.fixseries B) i)))
    (env.fixseries A).length hn
  have hb : env.fixseries B ≠ [] := by
    intro h
    rw [h] at hlen
    exact ha (List.length_eq_zero.mp (by simpa using hlen))
  exact ⟨p, hp, hmin, hfirst,
    symmetric_distance_aligned env A B ha hb hcond (Or.inl hlen) _ p hs⟩

/-- Witness for C6 on `A = [3, 1]`, `B = [1, 2]` (overlapping ranges). -/
theorem symmetric_distance_alignment_spec_witness :
    ∃ p : ℕ, p < ([3, 1] : List ℚ).length ∧
      (∀ i, i < ([3, 1] : List ℚ).length →
        npnorm unitEnv (npsub [3, 1] (nproll [1, 2] p)) ≤
        npnorm unitEnv (npsub [3, 1] (nproll [1, 2] i))) ∧
      (∀ j, j < p →
        npnorm unitEnv (npsub [3, 1] (nproll [1, 2] p)) <
        npnorm unitEnv (npsub [3, 1] (nproll [1, 2] j))) ∧
      symmetric_distance unitEnv [3, 1] [1, 2] =
        some (unitEnv.area (unitEnv.symmetric_difference
          (repair0 unitEnv (unitEnv.create_polygon [3, 1]))
          (repair0 unitEnv (unitEnv.create_polygon (nproll [1, 2] p))))) :=
  symmetric_distance_alignment_spec unitEnv [3, 1] [1, 2] (by decide) (by decide)
    (by with_unfolding_all decide)

/-- C7 counterexample: the cleaned lengths 3 and 2 differ, yet on the fast
path (disjoint ranges) `symmetric_distance` returns a numeric result
instead of raising. -/
theorem symmetric_distance_mismatch_numeric_cex :
    (unitEnv.fixseries [1, 1, 1]).length ≠ (unitEnv.fixseries [10, 10]).length ∧
    symmetric_distance unitEnv [1, 1, 1] [10, 10] = some 5 :=
  ⟨by decide, by with_unfolding_all decide⟩

/-- C7 (amended): a length mismatch raises (numpy's broadcast ValueError)
only on the alignment path and only when neither cleaned length is 1; the
fast path returns a numeric result regardless of the mismatch. -/
theorem symmetric_distance_length_mismatch_amended (env : GeomEnv Poly) (A B : List ℚ)
    (ha : env.fixseries A ≠ []) (hb : env.fixseries B ≠ [])
    (hcond : ¬ (npmin (env.fixseries A) > npmax (env.fixseries B) ∨
                npmin (env.fixseries B) > npmax (env.fixseries A)))
    (hne : (env.fixseries A).length ≠ (env.fixseries B).length)
    (h1 : (env.fixseries A).length ≠ 1) (h2 : (env.fixseries B).length ≠ 1) :
    symmetric_distance env A B = none :=
  symmetric_distance_incompatible env A B ha hb hcond (by tauto)

/-- Witness for the amended C7: lengths 3 and 2, overlapping ranges. -/
theorem symmetric_distance_length_mismatch_amended_witness :
    symmetric_distance unitEnv [1, 2, 2] [2, 1] = none :=
  symmetric_distance_length_mismatch_amended unitEnv [1, 2, 2] [2, 1]
    (by decide) (by decide) (by with_unfolding_all decide) (by decide) (by decide)
    (by decide)

/-- C8: `area_season` returns the four quadrant intersection areas in the
order (top-right, top-left, bottom-left, bottom-right) — the first two
components are swapped relative to `get_seasons`' construction order
(top-left, top-right, bottom-left, bottom-right) — and, on the concrete
clipping engine, a quadrant the polygon does not reach contributes area 0
(the series `[2, 2, 0, 0]` lies in the top-right quadrant alone). -/
theorem area_season_order_spec :
    (∀ (P : Type) (env : GeomEnv P) (ts : List ℚ),
      area_season env ts =
        (env.area (env.intersection
           (get_seasons env
             (env.envelope_exterior_xy (env.create_polygon (env.fixseries ts))).1
             (env.envelope_exterior_xy (env.create_polygon (env.fixseries ts))).2).2.1
           (env.create_polygon (env.fixseries ts))),
         env.area (env.intersection
           (get_seasons env
             (env.envelope_exterior_xy (env.create_polygon (env.fixseries ts))).1
             (env.envelope_exterior_xy (env.create_polygon (env.fixseries ts))).2).1
           (env.create_polygon (env.fixseries ts))),
         env.area (env.intersection
           (get_seasons env
             (env.envelope_exterior_xy (env.create_polygon (env.fixseries ts))).1
             (env.envelope_exterior_xy (env.create_polygon (env.fixseries ts))).2).2.2.1
           (env.create_polygon (env.fixseries ts))),
         env.area (env.intersection
           (get_seasons env
             (env.envelope_exterior_xy (env.create_polygon (env.fixseries ts))).1
             (env.envelope_exterior_xy (env.create_polygon (env.fixseries ts))).2).2.2.2
           (env.create_polygon (env.fixseries ts))))) ∧
    area_season ratEnv [2, 2, 0, 0] = (2, 0, 0, 0) :=
  ⟨fun _ _ _ => rfl, by with_unfolding_all decide⟩

/-- C10: `symmetric_distance` has no trivial-series short-circuit: with a
cleaned first series of length 1 it still builds the polygons, performs the
range test and, on the alignment path, the (one-shift) search, returning a
symmetric-difference area — never a sentinel vector. -/
theorem symmetric_distance_no_trivial_shortcircuit (env : GeomEnv Poly) (A B : List ℚ)
    (h1 : (env.fixseries A).length = 1) (hb : env.fixseries B ≠ []) :
    symmetric_distance env A B =
      some (env.area (env.symmetric_difference
        (repair0 env (env.create_polygon (env.fixseries A)))
        (if npmin (env.fixseries A) > npmax (env.fixseries B) ∨
            npmin (env.fixseries B) > npmax (env.fixseries A)
         then env.create_polygon (env.fixseries B)
         else repair0 env (env.create_polygon (env.fixseries B))))) := by
  have ha : env.fixseries A ≠ [] := by
    intro h
    rw [h] at h1
    simp at h1
  by_cases hcond : npmin (env.fixseries A) > npmax (env.fixseries B) ∨
      npmin (env.fixseries B) > npmax (env.fixseries A)
  · rw [if_pos hcond]
    exact symmetric_distance_fast env A B ha hb hcond
  · rw [if_neg hcond]
    have hsearch : alignSearch (fun i => npnorm env (npsub (env.fixseries A)
        (nproll (env.fixseries B) i))) (env.fixseries A).length =
        some (npnorm env (npsub (env.fixseries A) (nproll (env.fixseries B) 0)), 0) := by
      rw [h1]
      rfl
    have h := symmetric_distance_aligned env A B ha hb hcond
      (Or.inr (Or.inl h1)) _ 0 hsearch
    rw [h, nproll_zero]

/-- Witness for C10: a length-1 first series on the fast path. -/
theorem symmetric_distance_no_trivial_shortcircuit_witness :
    symmetric_distance unitEnv [7] [3] =
      some (unitEnv.area (unitEnv.symmetric_difference
        (repair0 unitEnv (unitEnv.create_polygon [7]))
        (if npmin (unitEnv.fixseries [7]) > npmax (unitEnv.fixseries [3]) ∨
            npmin (unitEnv.fixseries [3]) > npmax (unitEnv.fixseries [7])
         then unitEnv.create_polygon [3]
         else repair0 unitEnv (unitEnv.create_polygon [3]))) ) :=
  symmetric_distance_no_trivial_shortcircuit unitEnv [7] [3] (by decide) (by decide)

/-- C9 counterexample: `symmetric_distance` is not symmetric.  For
`A = [6, 2, 1, 1]` and `B = [5, 1, 5, 5]` (equal lengths, overlapping
ranges) the alignment norms tie between shifts 1 and 2 of B; the
first-minimum tie-break aligns A with `roll(B, 1)` in one direction but B
with `roll(A, 2)` in the other, two rotationally inequivalent overlaps, and
on the exact rational engine the two areas differ (101/5 versus 21). -/
theorem symmetric_distance_asymmetric_cex :
    (ratEnv.fixseries [6, 2, 1, 1]).length = (ratEnv.fixseries [5, 1, 5, 5]).length ∧
    symmetric_distance ratEnv [6, 2, 1, 1] [5, 1, 5, 5] ≠
      symmetric_distance ratEnv [5, 1, 5, 5] [6, 2, 1, 1] :=
  ⟨by decide, by with_unfolding_all decide⟩

/-- C9 (amended): `symmetric_distance` is symmetric for equal-length
cleaned series on the alignment path provided the minimising shift is
UNIQUE, the engine builds valid polygons, and its symmetric-difference
area is commutative and invariant under rolling both series by the same
shift (the Euclidean rotation invariance of the polar construction); with
tied minima the first-minimum tie-break can select rotationally
inequivalent alignments and symmetry fails. -/
theorem symmetric_distance_symmetric_amended (env : GeomEnv Poly) (A B : List ℚ) (p : ℕ)
    (ha : env.fixseries A ≠ [])
    (hlen : (env.fixseries A).length = (env.fixseries B).length)
    (hcond : ¬ (npmin (env.fixseries A) > npmax (env.fixseries B) ∨
                npmin (env.fixseries B) > npmax (env.fixseries A)))
    (hvalid : ∀ s : List ℚ, env.is_valid (env.create_polygon s) = true)
    (hcomm : ∀ q r : Poly, env.area (env.symmetric_difference q r) =
                           env.area (env.symmetric_difference r q))
    (hrot : ∀ (x y : List ℚ) (k : ℕ),
        env.area (env.symmetric_difference (env.create_polygon (nproll x k))
          (env.create_polygon (nproll y k))) =
        env.area (env.symmetric_difference (env.create_polygon x)
          (env.create_polygon y)))
    (hp : p < (env.fixseries A).length)
    (huniq : ∀ i, i < (env.fixseries A).length → i ≠ p →
        npnorm env (npsub (env.fixseries A) (nproll (env.fixseries B) p)) <
        npnorm env (npsub (env.fixseries A) (nproll (env.fixseries B) i))) :
    symmetric_distance env A B = symmetric_distance env B A := by
  have hrep : ∀ s : List ℚ,
      repair0 env (env.create_polygon s) = env.create_polygon s := by
    intro s
    simp [repair0, hvalid s]
  have hn : 0 < (env.fixseries A).length := List.length_pos.mpr ha
  have hb' : env.fixseries B ≠ [] := by
    intro h
    rw [h] at hlen
    exact ha (List.length_eq_zero.mp (by simpa using hlen))
  have hcond2 : ¬ (npmin (env.fixseries B) > npmax (env.fixseries A) ∨
      npmin (env.fixseries A) > npmax (env.fixseries B)) := by tauto
  obtain ⟨p1, hs1, hp1, hmin1, hfirst1⟩ := alignSearch_spec
    (fun i => npnorm env (npsub (env.fixseries A) (nproll (env.fixseries B) i)))
    (env.fixseries A).length hn
  have hp1p : p1 = p := by
    by_contra hne
    exact absurd (lt_of_le_of_lt (hmin1 p hp) (huniq p1 hp1 hne)) (lt_irrefl _)
  subst hp1p
  have hAB := symmetric_distance_aligned env A B ha hb' hcond (Or.inl hlen) _ p1 hs1
  rw [hrep, hrep] at hAB
  have hnb : 0 < (env.fixseries B).length := by
    rw [← hlen]
    exact hn
  obtain ⟨p2, hs2, hp2, hmin2, hfirst2⟩ := alignSearch_spec
    (fun i => npnorm env (npsub (env.fixseries B) (nproll (env.fixseries A) i)))
    (env.fixseries B).length hnb
  have hg : ∀ i, i < (env.fixseries A).length →
      npnorm env (npsub (env.fixseries B) (nproll (env.fixseries A) i)) =
      npnorm env (npsub (env.fixseries A) (nproll (env.fixseries B)
        (((env.fixseries A).length - i) % (env.fixseries A).length))) := by
    intro i hi
    unfold npnorm
    rw [sumSq_sub_roll_symm (env.fixseries A) (env.fixseries B) hlen i hi]
  have hm : ((env.fixseries A).length - p1) % (env.fixseries A).length <
      (env.fixseries A).length := Nat.mod_lt _ hn
  have hgm : npnorm env (npsub (env.fixseries B) (nproll (env.fixseries A)
      (((env.fixseries A).length - p1) % (env.fixseries A).length))) =
      npnorm env (npsub (env.fixseries A) (nproll (env.fixseries B) p1)) := by
    rw [hg _ hm, (mod_reflect (env.fixseries A).length _ p1 hm hp).mpr rfl]
  have hp2m : p2 = ((env.fixseries A).length - p1) % (env.fixseries A).length := by
    by_contra hne
    have hp2n : p2 < (env.fixseries A).length := by
      rw [hlen]
      exact hp2
    have hq : ((env.fixseries A).length - p2) % (env.fixseries A).length ≠ p1 := by
      intro hq
      exact hne ((mod_reflect (env.fixseries A).length p2 p1 hp2n hp).mp hq)
    have hqlt : ((env.fixseries A).length - p2) % (env.fixseries A).length <
        (env.fixseries A).length := Nat.mod_lt _ hn
    have hmB : ((env.fixseries A).length - p1) % (env.fixseries A).length <
        (env.fixseries B).length := by
      rw [← hlen]
      exact hm
    have h1 := hmin2 _ hmB
    rw [hgm, hg p2 hp2n] at h1
    exact absurd (lt_of_le_of_lt h1 (huniq _ hqlt hq)) (lt_irrefl _)
  subst hp2m
  have hBA := symmetric_distance_aligned env B A hb' ha hcond2 (Or.inl hlen.symm)
    _ _ hs2
  rw [hrep, hrep] at hBA
  rw [hAB, hBA]
  have h2 := hrot (nproll (env.fixseries A)
      (((env.fixseries A).length - p1) % (env.fixseries A).length))
    (env.fixseries B) p1
  rw [nproll_cancel (env.fixseries A) p1 hp] at h2
  exact congrArg some (h2.trans (hcomm _ _))

/-- Witness for the amended C9 on `A = [3, 1]`, `B = [1, 2]`, whose unique
best shift is 1, over the trivial engine (constant areas are commutative
and rotation invariant). -/
theorem symmetric_distance_symmetric_amended_witness :
    symmetric_distance unitEnv [3, 1] [1, 2] =
      symmetric_distance unitEnv [1, 2] [3, 1] :=
  symmetric_distance_symmetric_amended unitEnv [3, 1] [1, 2] 1 (by decide) (by decide)
    (by with_unfolding_all decide) (fun _ => rfl) (fun _ _ => rfl) (fun _ _ _ => rfl)
    (by decide) (by with_unfolding_all decide)
